import Mathlib

/-!
Verification of the medicine-information RAG pipeline (`llm_module.py`) and
the OCR-to-LLM formatting helper (`ocr_module.py`).

The Python source is shallowly embedded: JSON record fields become an
association list of keys to JSON values (`null` or a string), Python dict
`get` with truthiness tests becomes `getTruthy`, exceptions raised by
metadata construction or external API calls become `Except Unit`, and the
external collaborators (query engine, LLM completion) become function
parameters returning `Except Unit String`.
-/

namespace ICTProject

/-- JSON value stored under a medicine-record key: either `null` or a string.
The repository's data files only hold strings and nulls in the fields the
formatter reads. -/
inductive JVal where
  | null : JVal
  | str (s : String) : JVal
deriving DecidableEq, Repr

/-- Medicine record: a flat JSON object, modelled as an association list
(keys are unique in a JSON object; lookup takes the first binding). -/
abbrev Medicine := List (String × JVal)

/-- Lookup of `medicine[k]` / presence of key `k`: `medicine.get(k)` in
Python returns `None` when absent; we keep absence (`none`) distinct from a
present `null` (`some JVal.null`) because `medicine.get(k, "")` treats them
differently. -/
def getKey (medicine : Medicine) (k : String) : Option JVal :=
  match medicine with
  | [] => none
  | (k2, v) :: rest => if k2 = k then some v else getKey rest k

/-- Truthiness test `if medicine.get(field):` of the Python source combined
with the value used, `medicine[field]`: `some s` exactly when the key is
present, not null, and a non-empty string. -/
def getTruthy (medicine : Medicine) (k : String) : Option String :=
  match getKey medicine k with
  | some (JVal.str s) => if s = "" then none else some s
  | _ => none

/-- Inner loop of the overview branch of `_format_medicine_data`: try each
candidate key in order, use the first truthy one, then break. -/
def firstTruthy (medicine : Medicine) : List String → Option String
  | [] => none
  | k :: ks =>
    match getTruthy medicine k with
    | some v => some v
    | none => firstTruthy medicine ks

/-- Field list of the permit ("허가정보") schema, in source order
(`_format_medicine_data`, `source_type == "permit"`). -/
def permitFields : List (String × String) :=
  [("itemName", "의약품명"),
   ("entpName", "제조사"),
   ("efcyQesitm", "효능효과"),
   ("useMethodQesitm", "용법용량"),
   ("atpnWarnQesitm", "주의사항 경고"),
   ("atpnQesitm", "주의사항"),
   ("intrcQesitm", "상호작용"),
   ("seQesitm", "부작용"),
   ("depositMethodQesitm", "보관방법")]

/-- Field list of the overview ("개요정보") schema: candidate key lists
(lower-case then upper-case) with display labels, in source order. -/
def overviewFields : List (List String × String) :=
  [(["item_name", "ITEM_NAME"], "의약품명"),
   (["entp_name", "ENTP_NAME"], "제조사"),
   (["chart", "CHART"], "성상"),
   (["drug_shape", "DRUG_SHAPE"], "의약품 모양"),
   (["color_class1", "COLOR_CLASS1"], "색상 앞"),
   (["color_class2", "COLOR_CLASS2"], "색상 뒤"),
   (["class_name", "CLASS_NAME"], "약품 분류"),
   (["etc_otc_name", "ETC_OTC_NAME"], "전문/일반")]

/-- Loop body of the permit branch: append a line for each truthy field. -/
def permitLoop (medicine : Medicine) (fields : List (String × String))
    (acc : List String) : List String :=
  match fields with
  | [] => acc
  | fl :: rest =>
    match getTruthy medicine fl.1 with
    | some v => permitLoop medicine rest (acc ++ [fl.2 ++ ": " ++ v])
    | none => permitLoop medicine rest acc

/-- Loop body of the overview branch: for each field, append a line for the
first truthy candidate key (the inner loop breaks after the first hit). -/
def overviewLoop (medicine : Medicine) (fields : List (List String × String))
    (acc : List String) : List String :=
  match fields with
  | [] => acc
  | fl :: rest =>
    match firstTruthy medicine fl.1 with
    | some v => overviewLoop medicine rest (acc ++ [fl.2 ++ ": " ++ v])
    | none => overviewLoop medicine rest acc

/-- Embedding of `LLMModule._format_medicine_data(medicine, source_type)`:
collect one "label: value" part per truthy field, join with newline, and
return `None` when no parts were collected. -/
def formatMedicineData (medicine : Medicine) (sourceType : String) :
    Option String :=
  let textParts : List String :=
    if sourceType = "permit" then permitLoop medicine permitFields []
    else overviewLoop medicine overviewFields []
  if textParts = [] then none else some (String.intercalate "\n" textParts)

deriving instance DecidableEq for Except

/-- Formatted document produced by `_load_data`: text plus the metadata
fields `source` and `item_name`. -/
structure Doc where
  text : String
  source : String
  itemName : String
deriving DecidableEq, Repr

/-- Metadata item-name computation of the permit branch of `_load_data`:
`medicine.get("itemName", "")[:100]`. A present key bound to `null` makes
the slice evaluate `None[:100]`, raising `TypeError` (`Except.error`). -/
def permitItemName (medicine : Medicine) : Except Unit String :=
  match getKey medicine "itemName" with
  | some JVal.null => Except.error ()
  | some (JVal.str s) => Except.ok (s.take 100)
  | none => Except.ok ""

/-- Metadata item-name computation of the overview branch of `_load_data`:
`(medicine.get("item_name") or medicine.get("ITEM_NAME", ""))[:100]`. The
`or` takes the second operand when the first is `None` or empty; a `null`
bound to `ITEM_NAME` reached through the `or` raises `TypeError`. -/
def overviewItemName (medicine : Medicine) : Except Unit String :=
  match getTruthy medicine "item_name" with
  | some s => Except.ok (s.take 100)
  | none =>
    match getKey medicine "ITEM_NAME" with
    | some JVal.null => Except.error ()
    | some (JVal.str s) => Except.ok (s.take 100)
    | none => Except.ok ""

/-- Record loop of the permit branch of `_load_data`. The loop runs inside
the per-file `try`: a record whose `Document` construction raises aborts
the rest of the file, so no further documents are appended; records whose
formatted text is `None` are skipped without constructing a document. -/
def processPermitFile : List Medicine → List Doc
  | [] => []
  | m :: rest =>
    match formatMedicineData m "permit" with
    | none => processPermitFile rest
    | some text =>
      match permitItemName m with
      | Except.error _ => []
      | Except.ok name =>
        { text := text, source := "permit", itemName := name } ::
          processPermitFile rest

/-- Record loop of the overview branch of `_load_data`, with the same
per-file exception behaviour as the permit branch. -/
def processOverviewFile : List Medicine → List Doc
  | [] => []
  | m :: rest =>
    match formatMedicineData m "overview" with
    | none => processOverviewFile rest
    | some text =>
      match overviewItemName m with
      | Except.error _ => []
      | Except.ok name =>
        { text := text, source := "overview", itemName := name } ::
          processOverviewFile rest

/-- Abstract filesystem state seen by `_build_index` and `_load_data`:
whether the persisted index directory exists, and the contents of the two
source JSON files (`none`: file absent; `Except.error`: file present but
`json.load` raises; `Except.ok`: the parsed `medicines` list). -/
structure FS where
  indexDirExists : Bool
  eData : Option (Except Unit (List Medicine))
  nData : Option (Except Unit (List Medicine))

/-- Per-file step of `_load_data`: skip an absent file without opening it;
open a present file (recording the read), and on parse failure catch the
exception contributing no documents. The second component records which
source files were opened and read. -/
def loadFile (content : Option (Except Unit (List Medicine)))
    (process : List Medicine → List Doc) (name : String) :
    List Doc × List String :=
  match content with
  | none => ([], [])
  | some (Except.error _) => ([], [name])
  | some (Except.ok medicines) => (process medicines, [name])

/-- Embedding of `LLMModule._load_data`: documents collected from both
source files, together with the list of source files read. -/
def loadData (fs : FS) : List Doc × List String :=
  let e := loadFile fs.eData processPermitFile "e_data.json"
  let n := loadFile fs.nData processOverviewFile "n_data.json"
  (e.1 ++ n.1, e.2 ++ n.2)

/-- Result of `_build_index`: the index was loaded from the persisted
directory, built from freshly ingested documents, or absent (RAG disabled). -/
inductive IndexResult where
  | loadedFromDisk : IndexResult
  | builtFrom (docs : List Doc) : IndexResult
  | noIndex : IndexResult
deriving DecidableEq, Repr

/-- Embedding of `LLMModule._build_index`: when the persisted index
directory exists the index is loaded from storage and `_load_data` is never
called; otherwise the corpus is ingested and an index is built when at
least one document resulted. The second component is the list of source
JSON files read during the run. -/
def buildIndex (fs : FS) : IndexResult × List String :=
  if fs.indexDirExists then (IndexResult.loadedFromDisk, [])
  else
    let (docs, reads) := loadData fs
    if docs = [] then (IndexResult.noIndex, reads)
    else (IndexResult.builtFrom docs, reads)

/-- Python `sub in s` on strings, via lists of characters. -/
def subSearch (sub : List Char) : List Char → Bool
  | [] => decide (sub = [])
  | c :: rest => sub.isPrefixOf (c :: rest) || subSearch sub rest

/-- Python membership test `pat in s` used by `_enhance_question`. -/
def strContains (s pat : String) : Bool :=
  subSearch pat.toList s.toList

/-- Category suffix chain of `_enhance_question` (the `if`/`elif` ladder at
the end of the function): first match wins, later branches untested. -/
def categorySuffix (question : String) : String :=
  if strContains question "부작용" then
    " 부작용과 이상반응 정보를 중심으로 설명해주세요."
  else if strContains question "용법" || strContains question "용량" then
    " 알약의 경우 몇 알 단위로, 액체의 경우 mg 단위로 설명해주세요. 사용법 또는 용량을 중심으로 설명해주세요."
  else if strContains question "상호작용" || strContains question "같이" then
    " 약물 상호작용과 병용 금기 정보를 중심으로 설명해주세요."
  else ""

/-- Prompt built by `_enhance_question` before the category suffix chain:
the fixed preamble, the optional OCR block, the question, and the fixed
answer-style instructions. -/
def enhanceBase (question : String) (ocrContext : Option String) : String :=
  let enhanced := "의약품 정보 데이터베이스를 바탕으로 다음 질문에 답해주세요.\n\n"
  let enhanced :=
    match ocrContext with
    | some ctx => enhanced ++ "사용자가 입력으로 넣은 의약품 정보입니다 : " ++ ctx ++ "\n\n"
    | none => enhanced
  let enhanced := enhanced ++ "질문: " ++ question ++ "\n\n"
  enhanced ++ "답변은 일반인이 이해하기 쉽게 설명해주시고, 중요한 주의사항이 있다면 반드시 포함해주세요. 핵심 요점을 먼저 이야기하고, 가급적 물어본 질문의 핵심 내용만 대답해주세요. 질문에 포함되지 않는 내용은 답변하지 마세요."

/-- Embedding of `LLMModule._enhance_question`. -/
def enhanceQuestion (question : String) (ocrContext : Option String) : String :=
  enhanceBase question ocrContext ++ categorySuffix question

/-- Python whitespace characters recognized by `str.strip()` (the ASCII
ones; the repository's fixed messages and answers contain no exotic
Unicode spaces). -/
def pyIsSpace (c : Char) : Bool :=
  c = ' ' || c = '\t' || c = '\n' || c = '\r' ||
    c = Char.ofNat 11 || c = Char.ofNat 12

/-- Python `str.strip()`: remove leading and trailing whitespace. -/
def pyStrip (s : String) : String :=
  String.mk (((s.toList.dropWhile pyIsSpace).reverse.dropWhile pyIsSpace).reverse)

/-- Fixed apology string returned by `LLMModule.query` when the guarded
call raises. -/
def apologyMsg : String := "죄송합니다. 질문 처리 중 오류가 발생했습니다."

/-- Fixed fallback returned by `LLMModule.query` when the generated answer
is empty or whitespace-only. -/
def noInfoMsg : String := "죄송합니다. 관련된 정보를 찾을 수 없습니다."

/-- External call made inside the `try` of `LLMModule.query`: the query
engine when one was set up, otherwise direct LLM completion. Both
collaborators are modelled as functions that either raise (`Except.error`)
or return the stringified response. -/
def queryCall (queryEngine : Option (String → Except Unit String))
    (llmComplete : String → Except Unit String) (enhanced : String) :
    Except Unit String :=
  match queryEngine with
  | some qe => qe enhanced
  | none => llmComplete enhanced

/-- Embedding of `LLMModule.query`: enhance the question, run the guarded
external call, substitute the fixed fallback for an empty or
whitespace-only answer, and convert any raised exception into the fixed
apology string. -/
def query (queryEngine : Option (String → Except Unit String))
    (llmComplete : String → Except Unit String)
    (question : String) (ocrContext : Option String) : String :=
  let enhancedQuestion := enhanceQuestion question ocrContext
  match queryCall queryEngine llmComplete enhancedQuestion with
  | Except.error _ => apologyMsg
  | Except.ok answer =>
    if answer = "" || pyStrip answer = "" then noInfoMsg else answer

/-- Top-k retrieval size configured in `_setup_query_engine`
(`similarity_top_k=10`). -/
def similarityTopK : Nat := 10

/-- Similarity cutoff configured in `_setup_query_engine`
(`similarity_cutoff=0.3`). -/
def simCutoff : ℚ := 3 / 10

/-- Modelled from the spec: the node filter of the external
`SimilarityPostprocessor` configured in `_setup_query_engine` is library
code not present in this repository; per the spec, the retrieval step is to
"drop any result below a similarity-score cutoff of 0.3", so a scored
result is removed exactly when its score is strictly below the cutoff. -/
def similarityFilter (cutoff : ℚ) (results : List (Doc × ℚ)) :
    List (Doc × ℚ) :=
  results.filter (fun r => !(r.2 < cutoff))

/-- Fixed template wrapped around stripped OCR text by
`OCRModule.format_for_llm`. -/
def ocrTemplate (cleanedText : String) : String :=
  "[약품 상자에서 추출된 정보]\n" ++ cleanedText ++
    "\n\n위 정보는 사용자가 제시한 약품 상자에서 OCR로 추출한 내용입니다.\n이 정보를 참고하여 질문에 답변해주세요."

/-- Embedding of `OCRModule.format_for_llm`: `None` for an absent, empty
(`if not ocr_text`) or whitespace-only (stripped to empty) input, the fixed
template around the stripped text otherwise. -/
def formatForLLM (ocrText : Option String) : Option String :=
  match ocrText with
  | none => none
  | some t =>
    if t = "" then none
    else
      let cleanedText := pyStrip t
      if cleanedText = "" then none
      else some (ocrTemplate cleanedText)

/-- Declarative description of the permit-branch output: one "label: value"
entry per truthy field, in field-list order. -/
def permitLines (medicine : Medicine) : List String :=
  permitFields.filterMap
    (fun fl => (getTruthy medicine fl.1).map (fun v => fl.2 ++ ": " ++ v))

/-- Declarative description of the overview-branch output: one
"label: value" entry per logical field whose candidate list has a truthy
key, in field-list order. -/
def overviewLines (medicine : Medicine) : List String :=
  overviewFields.filterMap
    (fun fl => (firstTruthy medicine fl.1).map (fun v => fl.2 ++ ": " ++ v))

/-- Record on which the permit-branch `Document` construction does not
raise: either its formatted text is `None` (so no document is attempted)
or its item-name slice succeeds. -/
def permitOk (m : Medicine) : Prop :=
  formatMedicineData m "permit" = none ∨ permitItemName m ≠ Except.error ()

instance (m : Medicine) : Decidable (permitOk m) := by
  unfold permitOk; infer_instance

/-- Concrete document used in boundary examples for the retrieval filter. -/
def demoDoc : Doc := { text := "의약품명: 데모", source := "permit", itemName := "데모" }

theorem permitLoop_eq (medicine : Medicine) (fields : List (String × String))
    (acc : List String) :
    permitLoop medicine fields acc = acc ++ fields.filterMap
      (fun fl => (getTruthy medicine fl.1).map (fun v => fl.2 ++ ": " ++ v)) := by
  induction fields generalizing acc with
  | nil => simp [permitLoop]
  | cons fl rest ih =>
    cases h : getTruthy medicine fl.1 with
    | none => simp [permitLoop, h, ih]
    | some v => simp [permitLoop, h, ih]

theorem overviewLoop_eq (medicine : Medicine)
    (fields : List (List String × String)) (acc : List String) :
    overviewLoop medicine fields acc = acc ++ fields.filterMap
      (fun fl => (firstTruthy medicine fl.1).map (fun v => fl.2 ++ ": " ++ v)) := by
  induction fields generalizing acc with
  | nil => simp [overviewLoop]
  | cons fl rest ih =>
    cases h : firstTruthy medicine fl.1 with
    | none => simp [overviewLoop, h, ih]
    | some v => simp [overviewLoop, h, ih]

theorem formatPermit_eq (medicine : Medicine) :
    formatMedicineData medicine "permit" =
      if permitLines medicine = [] then none
      else some (String.intercalate "\n" (permitLines medicine)) := by
  have h : permitLoop medicine permitFields [] = permitLines medicine := by
    simpa [permitLines] using permitLoop_eq medicine permitFields []
  unfold formatMedicineData
  rw [if_pos rfl, h]

theorem formatOverview_eq (medicine : Medicine) :
    formatMedicineData medicine "overview" =
      if overviewLines medicine = [] then none
      else some (String.intercalate "\n" (overviewLines medicine)) := by
  have h : overviewLoop medicine overviewFields [] = overviewLines medicine := by
    simpa [overviewLines] using overviewLoop_eq medicine overviewFields []
  unfold formatMedicineData
  rw [if_neg (show ¬(("overview" : String) = "permit") by decide), h]

theorem formatPermit_none_iff (medicine : Medicine) :
    formatMedicineData medicine "permit" = none ↔
      ∀ p ∈ permitFields, getTruthy medicine p.1 = none := by
  rw [formatPermit_eq]
  constructor
  · intro h p hp
    by_cases hl : permitLines medicine = []
    · have := (List.filterMap_eq_nil_iff.mp hl) p hp
      simpa using this
    · rw [if_neg hl] at h; cases h
  · intro hall
    have hl : permitLines medicine = [] :=
      List.filterMap_eq_nil_iff.mpr (fun p hp => by simp [hall p hp])
    rw [if_pos hl]

theorem firstTruthy_none_iff (medicine : Medicine) (ks : List String) :
    firstTruthy medicine ks = none ↔ ∀ k ∈ ks, getTruthy medicine k = none := by
  induction ks with
  | nil => simp [firstTruthy]
  | cons k rest ih =>
    cases h : getTruthy medicine k with
    | none => simp [firstTruthy, h, ih]
    | some v => simp [firstTruthy, h]

theorem formatOverview_none_iff (medicine : Medicine) :
    formatMedicineData medicine "overview" = none ↔
      ∀ p ∈ overviewFields, ∀ k ∈ p.1, getTruthy medicine k = none := by
  rw [formatOverview_eq]
  constructor
  · intro h p hp
    by_cases hl : overviewLines medicine = []
    · have hnone := (List.filterMap_eq_nil_iff.mp hl) p hp
      have hft : firstTruthy medicine p.1 = none := by simpa using hnone
      exact (firstTruthy_none_iff medicine p.1).mp hft
    · rw [if_neg hl] at h; cases h
  · intro hall
    have hl : overviewLines medicine = [] := by
      refine List.filterMap_eq_nil_iff.mpr (fun p hp => ?_)
      have hft : firstTruthy medicine p.1 = none :=
        (firstTruthy_none_iff medicine p.1).mpr (hall p hp)
      simp [hft]
    rw [if_pos hl]

theorem mk_eq_empty_iff (l : List Char) : String.mk l = "" ↔ l = [] := by
  constructor
  · intro h
    have hd : (String.mk l).data = ("" : String).data := by rw [h]
    have he : ("" : String).data = [] := rfl
    rw [he] at hd
    exact hd
  · intro h; rw [h]

theorem all_dropWhile_iff (p : Char → Bool) (l : List Char) :
    (∀ x ∈ l.dropWhile p, p x) ↔ (∀ x ∈ l, p x) := by
  constructor
  · intro h x hx
    rw [← List.takeWhile_append_dropWhile (p := p) (l := l)] at hx
    rcases List.mem_append.mp hx with h1 | h2
    · exact List.mem_takeWhile_imp h1
    · exact h x h2
  · intro h x hx
    exact h x ((List.dropWhile_sublist p).subset hx)

theorem pyStrip_empty_iff (s : String) :
    pyStrip s = "" ↔ s.toList.all pyIsSpace = true := by
  unfold pyStrip
  rw [mk_eq_empty_iff, List.reverse_eq_nil_iff, List.dropWhile_eq_nil_iff]
  simp only [List.mem_reverse]
  rw [all_dropWhile_iff, List.all_eq_true]

theorem processPermitFile_append (pre rest : List Medicine)
    (h : ∀ m ∈ pre, permitOk m) :
    processPermitFile (pre ++ rest) =
      processPermitFile pre ++ processPermitFile rest := by
  induction pre with
  | nil => simp [processPermitFile]
  | cons a pre ih =>
    have ha := h a (List.mem_cons_self a pre)
    have hpre : ∀ m ∈ pre, permitOk m :=
      fun m hm => h m (List.mem_cons_of_mem a hm)
    rcases ha with hfmt | hname
    · simp [processPermitFile, hfmt, ih hpre]
    · cases hf : formatMedicineData a "permit" with
      | none => simp [processPermitFile, hf, ih hpre]
      | some t =>
        cases hn : permitItemName a with
        | error e => cases e; exact absurd hn hname
        | ok name => simp [processPermitFile, hf, hn, ih hpre]

/-- C1: `LLMModule.query` always returns a string and never raises: when
the guarded external call (the query-engine query or the direct LLM
completion) raises, the fixed apology string is returned; in every case the
result is the apology, the no-information fallback, or the answer the call
returned. -/
theorem query_catches_failures
    (queryEngine : Option (String → Except Unit String))
    (llmComplete : String → Except Unit String)
    (question : String) (ocrContext : Option String) :
    (queryCall queryEngine llmComplete (enhanceQuestion question ocrContext) =
        Except.error () →
      query queryEngine llmComplete question ocrContext = apologyMsg) ∧
    (query queryEngine llmComplete question ocrContext = apologyMsg ∨
      query queryEngine llmComplete question ocrContext = noInfoMsg ∨
      ∃ a, queryCall queryEngine llmComplete
          (enhanceQuestion question ocrContext) = Except.ok a ∧
        query queryEngine llmComplete question ocrContext = a) := by
  constructor
  · intro h
    simp [query, h]
  · cases hc : queryCall queryEngine llmComplete
      (enhanceQuestion question ocrContext) with
    | error e => left; simp [query, hc]
    | ok a =>
      by_cases h1 : a = ""
      · right; left; simp [query, hc, h1]
      · by_cases h2 : pyStrip a = ""
        · right; left; simp [query, hc, h1, h2]
        · right; right; exact ⟨a, rfl, by simp [query, hc, h1, h2]⟩

/-- C1 witness: a raising collaborator in direct-completion mode yields the
apology string. -/
theorem query_catches_failures_witness :
    query none (fun _ => Except.error ()) "약" none = apologyMsg :=
  (query_catches_failures none (fun _ => Except.error ()) "약" none).1 rfl

/-- C2: in both modes of `LLMModule.query` (query engine present or
absent), an empty or whitespace-only generated answer is replaced by the
fixed no-information fallback, and the returned string is never empty or
whitespace-only. -/
theorem query_never_blank
    (queryEngine : Option (String → Except Unit String))
    (llmComplete : String → Except Unit String)
    (question : String) (ocrContext : Option String) :
    query queryEngine llmComplete question ocrContext ≠ "" ∧
    pyStrip (query queryEngine llmComplete question ocrContext) ≠ "" ∧
    ∀ a, queryCall queryEngine llmComplete
        (enhanceQuestion question ocrContext) = Except.ok a →
      pyStrip a = "" →
      query queryEngine llmComplete question ocrContext = noInfoMsg := by
  cases hc : queryCall queryEngine llmComplete
      (enhanceQuestion question ocrContext) with
  | error e =>
    refine ⟨?_, ?_, ?_⟩
    · simp [query, hc]; decide
    · simp [query, hc]; decide
    · intro a ha; cases ha
  | ok a =>
    by_cases h2 : pyStrip a = ""
    · refine ⟨?_, ?_, ?_⟩
      · simp [query, hc, h2]; decide
      · simp [query, hc, h2]; decide
      · intro b hb hsb
        simp [query, hc, h2]
    · have h1 : a ≠ "" := by
        intro he; rw [he] at h2; exact h2 rfl
      refine ⟨?_, ?_, ?_⟩
      · simp [query, hc, h1, h2]
      · simp [query, hc, h1, h2]
      · intro b hb hsb
        have hab : a = b := by injection hb
        rw [← hab] at hsb
        exact absurd hsb h2

/-- C2 witness: a whitespace-only answer from the indexed mode is replaced
by the fallback message. -/
theorem query_never_blank_witness :
    query (some (fun _ => Except.ok " ")) (fun _ => Except.error ()) "약" none =
      noInfoMsg :=
  (query_never_blank (some (fun _ => Except.ok " "))
    (fun _ => Except.error ()) "약" none).2.2 " " rfl (by decide)

/-- C4: `_enhance_question` appends at most one category suffix, chosen by
first-match-wins keyword priority on the raw question: the side-effect
keyword beats the dosage keywords, which beat the interaction keywords, and
with no keyword no suffix is appended; in particular a question containing
both a side-effect term and a dosage term receives only the side-effect
augmentation. -/
theorem enhance_first_match_wins (question : String)
    (ocrContext : Option String) :
    (strContains question "부작용" = true →
      enhanceQuestion question ocrContext = enhanceBase question ocrContext ++
        " 부작용과 이상반응 정보를 중심으로 설명해주세요.") ∧
    (strContains question "부작용" = false →
      (strContains question "용법" || strContains question "용량") = true →
      enhanceQuestion question ocrContext = enhanceBase question ocrContext ++
        " 알약의 경우 몇 알 단위로, 액체의 경우 mg 단위로 설명해주세요. 사용법 또는 용량을 중심으로 설명해주세요.") ∧
    (strContains question "부작용" = false →
      (strContains question "용법" || strContains question "용량") = false →
      (strContains question "상호작용" || strContains question "같이") = true →
      enhanceQuestion question ocrContext = enhanceBase question ocrContext ++
        " 약물 상호작용과 병용 금기 정보를 중심으로 설명해주세요.") ∧
    (strContains question "부작용" = false →
      (strContains question "용법" || strContains question "용량") = false →
      (strContains question "상호작용" || strContains question "같이") = false →
      enhanceQuestion question ocrContext = enhanceBase question ocrContext) := by
  unfold enhanceQuestion categorySuffix
  refine ⟨fun h1 => by rw [h1]; simp, fun h1 h2 => by rw [h1, h2]; simp,
    fun h1 h2 h3 => by rw [h1, h2, h3]; simp, fun h1 h2 h3 => ?_⟩
  rw [h1, h2, h3]
  simp

/-- C4 witness: a question containing both the side-effect and the dosage
keyword receives only the side-effect augmentation. -/
theorem enhance_first_match_wins_witness :
    enhanceQuestion "부작용 용법" none = enhanceBase "부작용 용법" none ++
      " 부작용과 이상반응 정보를 중심으로 설명해주세요." :=
  (enhance_first_match_wins "부작용 용법" none).1 (by decide)

/-- C5: for either schema variant, `_format_medicine_data` returns `None`
exactly when the record holds no non-empty value under any recognized field
key, and `_load_data` creates no document for such a record. -/
theorem format_none_iff_all_empty (m : Medicine) :
    (formatMedicineData m "permit" = none ↔
      ∀ p ∈ permitFields, getTruthy m p.1 = none) ∧
    (formatMedicineData m "overview" = none ↔
      ∀ p ∈ overviewFields, ∀ k ∈ p.1, getTruthy m k = none) ∧
    (∀ rest, formatMedicineData m "permit" = none →
      processPermitFile (m :: rest) = processPermitFile rest) ∧
    (∀ rest, formatMedicineData m "overview" = none →
      processOverviewFile (m :: rest) = processOverviewFile rest) := by
  refine ⟨formatPermit_none_iff m, formatOverview_none_iff m, ?_, ?_⟩
  · intro rest h; simp [processPermitFile, h]
  · intro rest h; simp [processOverviewFile, h]

/-- C5 witness: a record whose only recognized field is the empty string
contributes no document. -/
theorem format_none_iff_all_empty_witness :
    processPermitFile [[("itemName", JVal.str "")], [("itemName", JVal.str "약")]] =
      processPermitFile [[("itemName", JVal.str "약")]] :=
  (format_none_iff_all_empty [("itemName", JVal.str "")]).2.2.1
    [[("itemName", JVal.str "약")]] (by decide)

/-- C6: for a record with at least one non-empty recognized field, the
formatted text is the newline-join of exactly one "label: value" entry per
non-empty recognized field (per logical field with a truthy candidate, for
the overview variant), in the fixed field order, with no entries for absent
or empty fields. -/
theorem format_lines_exact (m : Medicine) :
    ((∃ p ∈ permitFields, getTruthy m p.1 ≠ none) →
      formatMedicineData m "permit" =
        some (String.intercalate "\n" (permitLines m))) ∧
    ((∃ p ∈ overviewFields, firstTruthy m p.1 ≠ none) →
      formatMedicineData m "overview" =
        some (String.intercalate "\n" (overviewLines m))) := by
  constructor
  · rintro ⟨p, hp, hne⟩
    rw [formatPermit_eq]
    have hnn : permitLines m ≠ [] := by
      intro hl
      exact hne (by simpa using (List.filterMap_eq_nil_iff.mp hl) p hp)
    rw [if_neg hnn]
  · rintro ⟨p, hp, hne⟩
    rw [formatOverview_eq]
    have hnn : overviewLines m ≠ [] := by
      intro hl
      exact hne (by simpa using (List.filterMap_eq_nil_iff.mp hl) p hp)
    rw [if_neg hnn]

/-- C6 witness: a permit record with one non-empty and one empty field
formats to the single corresponding line. -/
theorem format_lines_exact_witness :
    formatMedicineData
        [("seQesitm", JVal.str "졸림"), ("entpName", JVal.str "")] "permit" =
      some (String.intercalate "\n"
        (permitLines [("seQesitm", JVal.str "졸림"), ("entpName", JVal.str "")])) :=
  (format_lines_exact
      [("seQesitm", JVal.str "졸림"), ("entpName", JVal.str "")]).1
    ⟨("seQesitm", "부작용"), by decide, by decide⟩

/-- C7: in overview-schema formatting the candidate keys of a logical field
are tried in order and the first non-empty match is used: a truthy first
key wins regardless of the second, an absent or empty first key defers to
the second, and a record with both casings of the drug-name field populated
produces exactly one line carrying the first key's value. -/
theorem overview_casing_priority (m : Medicine) (k1 k2 : String) :
    ((∃ v, getTruthy m k1 = some v) →
      firstTruthy m [k1, k2] = getTruthy m k1) ∧
    (getTruthy m k1 = none → firstTruthy m [k1, k2] = getTruthy m k2) ∧
    (∀ s1 s2 : String, s1 ≠ "" → s2 ≠ "" →
      formatMedicineData
          [("item_name", JVal.str s1), ("ITEM_NAME", JVal.str s2)] "overview" =
        some ("의약품명: " ++ s1)) := by
  refine ⟨?_, ?_, ?_⟩
  · rintro ⟨v, hv⟩; simp [firstTruthy, hv]
  · intro h; cases h2 : getTruthy m k2 <;> simp [firstTruthy, h, h2]
  · intro s1 s2 h1 h2
    have hlines :
        overviewLines [("item_name", JVal.str s1), ("ITEM_NAME", JVal.str s2)] =
          ["의약품명: " ++ s1] := by
      simp [overviewLines, overviewFields, firstTruthy, getTruthy, getKey, h1]
    rw [formatOverview_eq, hlines, if_neg (by simp)]
    rfl

/-- C7 witness: with both casings of the drug-name key populated, exactly
one line is produced, carrying the lower-case key's value. -/
theorem overview_casing_priority_witness :
    formatMedicineData
        [("item_name", JVal.str "가"), ("ITEM_NAME", JVal.str "나")] "overview" =
      some ("의약품명: " ++ "가") :=
  (overview_casing_priority [] "item_name" "ITEM_NAME").2.2 "가" "나"
    (by decide) (by decide)

/-- C8: when the persisted index directory exists, `_build_index` loads the
index from disk and performs no corpus ingestion: no source JSON file is
read, and the outcome is the same for all source-file contents. -/
theorem persisted_index_skips_ingestion (fs : FS)
    (h : fs.indexDirExists = true) :
    (buildIndex fs).1 = IndexResult.loadedFromDisk ∧
    (buildIndex fs).2 = [] ∧
    ∀ g : FS, g.indexDirExists = true → buildIndex fs = buildIndex g := by
  refine ⟨by simp [buildIndex, h], by simp [buildIndex, h], ?_⟩
  intro g hg
  simp [buildIndex, h, hg]

/-- C8 witness: with the index directory present and a changed source file
on disk, no source file is read. -/
theorem persisted_index_skips_ingestion_witness :
    (buildIndex
        { indexDirExists := true,
          eData := some (Except.ok [[("itemName", JVal.str "약")]]),
          nData := none }).2 = [] :=
  (persisted_index_skips_ingestion
    { indexDirExists := true,
      eData := some (Except.ok [[("itemName", JVal.str "약")]]),
      nData := none } rfl).2.1

/-- C9: during permit-file ingestion, a record whose `itemName` key is
present but null while some recognized field is non-empty makes the
metadata slice evaluate `None[:100]` and raise `TypeError`; the per-file
handler catches it, so the remaining records of the file contribute no
documents while documents from earlier records are retained. -/
theorem null_item_name_aborts_file (pre rest : List Medicine) (m : Medicine)
    (hnull : getKey m "itemName" = some JVal.null)
    (hsome : formatMedicineData m "permit" ≠ none)
    (hpre : ∀ m2 ∈ pre, permitOk m2) :
    permitItemName m = Except.error () ∧
    processPermitFile (pre ++ m :: rest) = processPermitFile pre := by
  have herr : permitItemName m = Except.error () := by
    unfold permitItemName; rw [hnull]
  refine ⟨herr, ?_⟩
  rw [processPermitFile_append pre (m :: rest) hpre]
  cases hf : formatMedicineData m "permit" with
  | none => exact absurd hf hsome
  | some t => simp [processPermitFile, hf, herr]

/-- C9 witness: a file with a good record, then a record with a null
`itemName` and a non-empty manufacturer, then another good record, keeps
only the first record's document. -/
theorem null_item_name_aborts_file_witness :
    permitItemName [("entpName", JVal.str "제조"), ("itemName", JVal.null)] =
      Except.error () ∧
    processPermitFile
        [[("itemName", JVal.str "가")],
         [("entpName", JVal.str "제조"), ("itemName", JVal.null)],
         [("itemName", JVal.str "나")]] =
      processPermitFile [[("itemName", JVal.str "가")]] :=
  null_item_name_aborts_file [[("itemName", JVal.str "가")]]
    [[("itemName", JVal.str "나")]]
    [("entpName", JVal.str "제조"), ("itemName", JVal.null)]
    (by decide) (by decide) (by decide)

/-- C10: `OCRModule.format_for_llm` returns `None` exactly when its input
is absent, empty, or whitespace-only, and otherwise returns the fixed
explanatory template around the whitespace-stripped input text. -/
theorem format_for_llm_blank (o : Option String) :
    (formatForLLM o = none ↔
      ∀ s, o = some s → s.toList.all pyIsSpace = true) ∧
    (∀ s, o = some s → s.toList.all pyIsSpace = false →
      formatForLLM o = some (ocrTemplate (pyStrip s))) := by
  cases o with
  | none =>
    constructor
    · constructor
      · intro _ s hs; cases hs
      · intro _; rfl
    · intro s hs; cases hs
  | some t =>
    constructor
    · constructor
      · intro h s hs
        have he : t = s := by injection hs
        subst he
        rw [← pyStrip_empty_iff]
        by_cases h1 : t = ""
        · rw [h1]; rfl
        · by_cases h2 : pyStrip t = ""
          · exact h2
          · exfalso; simp [formatForLLM, h1, h2] at h
      · intro hall
        have hstrip : pyStrip t = "" := (pyStrip_empty_iff t).mpr (hall t rfl)
        by_cases h1 : t = ""
        · simp [formatForLLM, h1]
        · simp [formatForLLM, h1, hstrip]
    · intro s hs hnall
      have he : t = s := by injection hs
      subst he
      have h1 : t ≠ "" := by
        intro he2; subst he2; exact absurd hnall (by decide)
      have h2 : pyStrip t ≠ "" := by
        intro hc
        rw [pyStrip_empty_iff] at hc
        exact absurd hc (by rw [hnall]; decide)
      simp [formatForLLM, h1, h2]

/-- C10 witness: a padded non-blank input is wrapped in the template around
its stripped text. -/
theorem format_for_llm_blank_witness :
    formatForLLM (some " 약 ") = some (ocrTemplate (pyStrip " 약 ")) :=
  (format_for_llm_blank (some " 약 ")).2 " 약 " rfl (by decide)

/-- C3 counterexample: contrary to the claim that a retrieved document
whose similarity score is exactly 0.3 is excluded, the configured filter
keeps a result scored exactly at the cutoff. -/
theorem cutoff_boundary_kept :
    similarityFilter simCutoff [(demoDoc, 3 / 10)] = [(demoDoc, 3 / 10)] := by
  simp [similarityFilter, simCutoff]

/-- C3 (amended): the retrieval step fetches the top 10 most similar
documents and filters with an inclusive boundary: a result is kept exactly
when its score is at least the cutoff 0.3, so a score of exactly 0.3 is
included, a score of 0.31 is included, and a score of 0.29 is dropped. -/
theorem similarity_cutoff_inclusive :
    similarityTopK = 10 ∧
    (∀ (results : List (Doc × ℚ)) (r : Doc × ℚ),
      r ∈ similarityFilter simCutoff results ↔ r ∈ results ∧ simCutoff ≤ r.2) ∧
    similarityFilter simCutoff
        [(demoDoc, 3 / 10), (demoDoc, 31 / 100), (demoDoc, 29 / 100)] =
      [(demoDoc, 3 / 10), (demoDoc, 31 / 100)] := by
  refine ⟨rfl, ?_, ?_⟩
  · intro results r
    simp [similarityFilter, List.mem_filter, not_lt]
  · simp only [similarityFilter, simCutoff, List.filter]
    norm_num

end ICTProject
